import Mathlib

/-!
Shallow embedding of the corepy runtime core (tensor dispatch and profiler),
translated from `src/corepy/tensor.py` and `src/corepy/profiler/core.py`.
Durations and float payloads are modelled as rationals; the numeric kernel
layer (external per spec §6) is an explicit function parameter.
-/

namespace Corepy

/-- Execution targets, from `corepy.backend.types.BackendType`
(modelled from the spec: the `backend.types` module itself is not in the
source tree; spec §3 gives the enum `CPU`, `GPU`). -/
inductive BackendType
  | CPU
  | GPU
deriving DecidableEq, Repr

/-- Rendering used in Python f-strings such as
`f"Backend mismatch: {self.backend} vs {other.backend}"`. -/
def BackendType.show : BackendType → String
  | .CPU => "BackendType.CPU"
  | .GPU => "BackendType.GPU"

/-- Errors that tensor operations can raise: `BackendError` from
`corepy.backend.errors` (modelled from the spec, §7 taxonomy) and Python's
built-in `ValueError` used in `tensor.py`. -/
inductive TensorError
  | backendError (msg : String)
  | valueError (msg : String)
deriving DecidableEq, Repr

/-- A tensor as used by `_binary_op` / `matmul` in `src/corepy/tensor.py`:
backing data (floats modelled as rationals), a shape, and the
`BackendType` attached at construction. -/
structure Tensor where
  shape : List Nat
  data : List ℚ
  backend : BackendType
deriving DecidableEq, Repr

/-- The external kernel entry point, keyed by `(operation name, backend)`
(spec §6: consumed from the kernel/compute layer; `backend/dispatch.py` is
not in the source tree). The binary ops and matmul pass both operands'
backing data. -/
def Kernel : Type := String → BackendType → List ℚ → List ℚ → List ℚ

/-- `Tensor._binary_op(self, op, other)` from `src/corepy/tensor.py`
(lines 343-394), for two tensor operands: the backend-mismatch check runs
first and raises `BackendError`; otherwise the operation is dispatched
(the compiled Rust fast path is absent from the source tree, so the
`ImportError` fallback to `dispatch_kernel` is the behaviour embedded
here) and the result carries `self.backend`. -/
def binary_op (kernel : Kernel) (op : String) (self other : Tensor) :
    Except TensorError Tensor :=
  if other.backend ≠ self.backend then
    .error (.backendError
      ("Backend mismatch: " ++ self.backend.show ++ " vs " ++ other.backend.show))
  else
    let result := kernel op self.backend self.data other.data
    .ok { shape := [result.length], data := result, backend := self.backend }

/-- `Tensor.matmul(self, other)` from `src/corepy/tensor.py` (lines
396-450), for two tensor operands: no backend comparison is performed; the
compiled Rust fast path is absent from the source tree, so the method
falls through to `dispatch_kernel("matmul", self.backend, ...)` and wraps
the result with `self.backend`. -/
def matmul (kernel : Kernel) (self other : Tensor) : Except TensorError Tensor :=
  let result := kernel "matmul" self.backend self.data other.data
  .ok { shape := [result.length], data := result, backend := self.backend }

/-- A trivial kernel instance (returns the left operand's data), used to
evaluate the dispatch layer at concrete inputs. -/
def kernelFst : Kernel := fun _ _ a _ => a

/-- Concrete CPU-resident tensor. -/
def tCPU : Tensor := { shape := [2], data := [1, 2], backend := .CPU }

/-- Concrete GPU-resident tensor. -/
def tGPU : Tensor := { shape := [2], data := [3, 4], backend := .GPU }

/-!
## Profiler engine

The recording engine lives in the compiled `_corepy_rust` extension, which
is not in the source tree; it is modelled from the spec (§3 `OperationRecord`,
context; §4.2 Profiler). The Python wrappers in
`src/corepy/profiler/core.py` (`enable_profiling`, `disable_profiling`,
`clear_profile`, `ProfileContext`) are translated directly.
-/

/-- Modelled from the spec: `OperationRecord` (§3) —
`{count, total_time, min_time, max_time, primary_backend}`, where
`primary_backend` is derived from per-backend observation counts
(§4.2: most-frequently-observed, first-seen wins on ties), kept here in
first-seen order. -/
structure OperationRecord where
  count : Nat
  total_time : ℚ
  min_time : ℚ
  max_time : ℚ
  backends : List (String × Nat)
deriving DecidableEq, Repr

/-- Increment the observation count of backend `b`, appending it with
count 1 on first sight (first-seen order preserved). -/
def bumpBackend : List (String × Nat) → String → List (String × Nat)
  | [], b => [(b, 1)]
  | (x, n) :: rest, b =>
    if x = b then (x, n + 1) :: rest else (x, n) :: bumpBackend rest b

/-- Most-frequently-observed backend, first-seen wins on ties (spec §4.2). -/
def primaryBackend (l : List (String × Nat)) : String :=
  (l.foldl (fun best cur => if cur.2 > best.2 then cur else best) ("unknown", 0)).1

/-- Modelled from the spec: the profiler's global state (§4.2) — the
enabled flag (Disabled initially), the aggregate table keyed by
`(name, context)` (§3 offers the compound key for exact per-context
breakdowns), and the thread's current context label, a single slot written
by `set_profile_context`. -/
structure ProfState where
  enabled : Bool
  context : Option String
  table : List ((String × Option String) × OperationRecord)
deriving DecidableEq, Repr

/-- The profiler's initial state: Disabled, no context, empty table. -/
def initState : ProfState := { enabled := false, context := none, table := [] }

/-- Modelled from the spec: `_corepy_rust.set_profile_context(ctx)` —
assigns the thread's current context label (the Python call sites pass a
name on scope entry and `None` on scope exit). -/
def set_profile_context (ctx : Option String) (s : ProfState) : ProfState :=
  { s with context := ctx }

/-- `enable_profiling()` from `src/corepy/profiler/core.py` (modelled from
the spec on the Rust side: idempotent O(1) toggle, §4.2). -/
def enable_profiling (s : ProfState) : ProfState := { s with enabled := true }

/-- `disable_profiling()` (spec §4.2). -/
def disable_profiling (s : ProfState) : ProfState := { s with enabled := false }

/-- `clear_profile()` — empties the aggregate table only; the flag is
untouched (spec §4.2). -/
def clear_profile (s : ProfState) : ProfState := { s with table := [] }

/-- A fresh aggregate record after one observation. -/
def freshRecord (dur : ℚ) (backend : String) : OperationRecord :=
  { count := 1, total_time := dur, min_time := dur, max_time := dur,
    backends := [(backend, 1)] }

/-- Fold one observation into an existing aggregate record (spec §4.2:
increment `count`, accumulate `total_time`, update `min`/`max`, update the
backend observation counts). -/
def updateRecord (r : OperationRecord) (dur : ℚ) (backend : String) :
    OperationRecord :=
  { count := r.count + 1, total_time := r.total_time + dur,
    min_time := min r.min_time dur, max_time := max r.max_time dur,
    backends := bumpBackend r.backends backend }

/-- Update the table entry at `key`, creating it (appended, preserving
first-seen order) when absent. -/
def tableInsert (key : String × Option String) (dur : ℚ) (backend : String) :
    List ((String × Option String) × OperationRecord) →
      List ((String × Option String) × OperationRecord)
  | [] => [(key, freshRecord dur backend)]
  | (k, r) :: rest =>
    if k = key then (k, updateRecord r dur backend) :: rest
    else (k, r) :: tableInsert key dur backend rest

/-- Modelled from the spec: `record(op_name, duration, backend)` (§4.2) —
when Disabled, short-circuits and does nothing; when Enabled, folds the
observation into the record keyed by the name and the current top of the
context. -/
def record (op : String) (dur : ℚ) (backend : String) (s : ProfState) :
    ProfState :=
  if s.enabled then
    { s with table := tableInsert (op, s.context) dur backend s.table }
  else s

/-- Run a sequence of recorded operations `(name, duration, backend)`. -/
def runOps (ops : List (String × ℚ × String)) (s : ProfState) : ProfState :=
  ops.foldl (fun st o => record o.1 o.2.1 o.2.2 st) s

/-- `ProfileContext.__enter__` from `src/corepy/profiler/core.py`: sets the
thread-local context to the scope's name. -/
def ProfileContext.enter (name : String) (s : ProfState) : ProfState :=
  set_profile_context (some name) s

/-- `ProfileContext.__exit__` from `src/corepy/profiler/core.py`: sets the
context to `None` ("# Clear context"), on every exit path. -/
def ProfileContext.exit (s : ProfState) : ProfState :=
  set_profile_context none s

/-- Python `with ProfileContext(name): body` — `__enter__` runs first and
`__exit__` runs on every exit path, normal or exceptional (the body's
outcome is threaded through unchanged). -/
def withProfileContext (name : String)
    (body : ProfState → ProfState × Except TensorError Unit) (s : ProfState) :
    ProfState × Except TensorError Unit :=
  let s1 := ProfileContext.enter name s
  let (s2, r) := body s1
  (ProfileContext.exit s2, r)

/-- The failing input for the nested-scope claim: enable profiling, then
`with ProfileContext("outer"):` a nested `with ProfileContext("inner"):`
block recording `"mul"`, followed — still inside the outer block — by a
recorded `"add"`. -/
def nestedProgram : ProfState × Except TensorError Unit :=
  withProfileContext "outer"
    (fun s0 =>
      let (s1, _) := withProfileContext "inner"
        (fun t => (record "mul" 1 "CPU" t, .ok ())) s0
      (record "add" 1 "CPU" s1, .ok ()))
    (enable_profiling initState)

/-!
## Report snapshots and analysis

`get_profile_report` (the Rust side of `profile_report(format='dict')`) is
modelled from the spec; the analysis functions (`detect_bottlenecks`,
`get_recommendations`, `detect_regressions`) and the exporters are
translated from `src/corepy/profiler/core.py`.
-/

/-- The decimal digit `n` (for `n < 10`) as a character. -/
def digitChar (n : Nat) : Char := Char.ofNat (48 + n)

/-- Base-10 digit characters, most significant first; structural recursion
on a fuel bound (any fuel above the number suffices). -/
def natDigitsAux : Nat → Nat → List Char
  | 0, _ => []
  | fuel + 1, n =>
    if n < 10 then [digitChar n]
    else natDigitsAux fuel (n / 10) ++ [digitChar (n % 10)]

/-- Base-10 digit characters of a natural number, most significant first. -/
def natDigits (n : Nat) : List Char := natDigitsAux (n + 1) n

/-- Decimal rendering of a natural number. -/
def natStr (n : Nat) : String := ⟨natDigits n⟩

/-- Decimal rendering of an integer. -/
def intStr (i : Int) : String :=
  if i < 0 then "-" ++ natStr i.natAbs else natStr i.natAbs

/-- Left-pad a digit list with zeros to width `w`. -/
def zeroPad (w : Nat) (s : List Char) : List Char :=
  List.replicate (w - s.length) '0' ++ s

/-- Fixed-point rendering with `prec` decimals, modelling the Python
format specifier `{:.1f}` / `{:.2f}` / `{:.3f}` used in the report text
(rounding ties per `round`; only ever used inside display strings that no
claim's truth depends on). -/
def fmtFixed (prec : Nat) (q : ℚ) : String :=
  let m : Int := round (q * (10 : ℚ) ^ prec)
  let sign := if m < 0 then "-" else ""
  let a := m.natAbs
  if prec = 0 then sign ++ natStr a
  else sign ++ natStr (a / 10 ^ prec) ++ "." ++ ⟨zeroPad prec (natDigits (a % 10 ^ prec))⟩

/-- One operation's entry in a report snapshot, with the fields the
`profile_report(format='dict')` consumers read in
`src/corepy/profiler/core.py`. -/
structure OpReport where
  operation : String
  count : Nat
  total_time_ms : ℚ
  avg_time_ms : ℚ
  min_time_ms : ℚ
  max_time_ms : ℚ
  primary_backend : String
  percent_total : ℚ
deriving DecidableEq, Repr

/-- A report snapshot: `{metadata: {session_id}, operations, total_time_ms}`
(spec §6, persisted layout). -/
structure Report where
  session_id : String
  operations : List (String × OpReport)
  total_time_ms : ℚ
deriving DecidableEq, Repr

/-- Add `n` observations of backend `b` to a backend histogram. -/
def addObs : List (String × Nat) → String → Nat → List (String × Nat)
  | [], b, n => [(b, n)]
  | (x, m) :: rest, b, n =>
    if x = b then (x, m + n) :: rest else (x, m) :: addObs rest b n

/-- Merge two aggregate records for the same operation name (used when a
name was recorded under several contexts). -/
def mergeRecord (a b : OperationRecord) : OperationRecord :=
  { count := a.count + b.count, total_time := a.total_time + b.total_time,
    min_time := min a.min_time b.min_time, max_time := max a.max_time b.max_time,
    backends := b.backends.foldl (fun acc p => addObs acc p.1 p.2) a.backends }

/-- Insert-or-merge an aggregate entry into a name-keyed list. -/
def insertEntry : List (String × OperationRecord) → String → OperationRecord →
    List (String × OperationRecord)
  | [], n, r => [(n, r)]
  | (m, q) :: rest, n, r =>
    if m = n then (m, mergeRecord q r) :: rest else (m, q) :: insertEntry rest n r

/-- Modelled from the spec: the snapshot's per-name aggregation (§4.2
`get_report(context_filter?)`) — restrict the `(name, context)`-keyed table
to the filter when one is given, then merge by name. -/
def aggEntries (t : List ((String × Option String) × OperationRecord))
    (filter : Option String) : List (String × OperationRecord) :=
  let sel := match filter with
    | none => t
    | some c => t.filter (fun e => e.1.2 = some c)
  sel.foldl (fun acc e => insertEntry acc e.1.1 e.2) []

/-- Modelled from the spec: one operation's report entry. `percent_total`
is on the 0–100 percentage scale: the spec's testable property
`Σ percent_total ≈ 100.0` (§8), the repo's own test
(`test_profiler.py` asserts `percent_total > 5.0` for a dominant
operation) and every consumer in `core.py` (`detect_bottlenecks` divides
it by `100.0`; the table renders it under a `%` column) fix this scale. -/
def opReport (name : String) (r : OperationRecord) (grand : ℚ) : OpReport :=
  { operation := name, count := r.count, total_time_ms := r.total_time,
    avg_time_ms := r.total_time / (r.count : ℚ),
    min_time_ms := r.min_time, max_time_ms := r.max_time,
    primary_backend := primaryBackend r.backends,
    percent_total := if 0 < grand then 100 * r.total_time / grand else 0 }

/-- Modelled from the spec: `_corepy_rust.get_profile_report(ctx)` → the
dict snapshot behind `profile_report(format='dict')`. -/
def get_profile_report (s : ProfState) (filter : Option String) : Report :=
  let entries := aggEntries s.table filter
  let grand := (entries.map (fun e => e.2.total_time)).sum
  { session_id := "session",
    operations := entries.map (fun e => (e.1, opReport e.1 e.2 grand)),
    total_time_ms := grand }

/-- One entry of `detect_bottlenecks`'s result
(`src/corepy/profiler/core.py`, lines 218-235). -/
structure BottleneckEntry where
  operation : String
  percent_total : ℚ
  time_ms : ℚ
  severity : String
  reason : String
  suggestion : String
deriving DecidableEq, Repr

/-- Core of `detect_bottlenecks` over the snapshot's operations:
`percent = percent_total / 100.0`; include if `percent > threshold`;
severity `"CRITICAL"` if `percent > 0.5` else `"HIGH"`. -/
def bottlenecksOf (threshold : ℚ) (ops : List (String × OpReport)) :
    List BottleneckEntry :=
  ops.filterMap (fun e =>
    let percent := e.2.percent_total / 100
    if threshold < percent then
      some { operation := e.2.operation, percent_total := e.2.percent_total,
             time_ms := e.2.total_time_ms,
             severity := if 1 / 2 < percent then "CRITICAL" else "HIGH",
             reason := "Takes " ++ fmtFixed 1 (percent * 100) ++ "% of execution time",
             suggestion := "Check input size or switch backend" }
    else none)

/-- `detect_bottlenecks(threshold)` from `src/corepy/profiler/core.py`:
reads the current global snapshot (no context filter). -/
def detect_bottlenecks (threshold : ℚ) (s : ProfState) : List BottleneckEntry :=
  bottlenecksOf threshold (get_profile_report s none).operations

/-- The bottleneck entry as the claim describes it, for comparison with
the code: included records carry severity decided by the time share
`total_time / grand_total` against `0.5`. -/
def bottleneckClaimed (grand : ℚ) (e : String × OpReport) : BottleneckEntry :=
  { operation := e.2.operation, percent_total := e.2.percent_total,
    time_ms := e.2.total_time_ms,
    severity :=
      if 1 / 2 < e.2.total_time_ms / grand then "CRITICAL" else "HIGH",
    reason := "Takes " ++ fmtFixed 1 e.2.percent_total ++ "% of execution time",
    suggestion := "Check input size or switch backend" }

/-- One entry of `detect_regressions`'s result
(`src/corepy/profiler/core.py`, lines 255-274). -/
structure RegressionEntry where
  operation : String
  baseline_ms : ℚ
  actual_ms : ℚ
  slowdown_factor : ℚ
  causes : List String
deriving DecidableEq, Repr

/-- Python `op_name in baseline['operations']` / indexing: first-match
association lookup. -/
def lookupOp (n : String) : List (String × OpReport) → Option OpReport
  | [] => none
  | (m, r) :: rest => if m = n then some r else lookupOp n rest

/-- Core of `detect_regressions` over the current snapshot's operations:
for each operation also present in the baseline, flag it when
`base_time > 0 and curr_time / base_time > threshold`. -/
def regressionsOf (baseline : Report) (threshold : ℚ)
    (ops : List (String × OpReport)) : List RegressionEntry :=
  ops.filterMap (fun e =>
    match lookupOp e.1 baseline.operations with
    | none => none
    | some b =>
      if 0 < b.avg_time_ms ∧ threshold < e.2.avg_time_ms / b.avg_time_ms then
        some { operation := e.1, baseline_ms := b.avg_time_ms,
               actual_ms := e.2.avg_time_ms,
               slowdown_factor := e.2.avg_time_ms / b.avg_time_ms,
               causes := ["Increased data size", "Change in algorithm"] }
      else none)

/-- `detect_regressions(baseline, threshold=1.2)` from
`src/corepy/profiler/core.py`: compares the current global snapshot
against the caller-supplied baseline. -/
def detect_regressions (baseline : Report) (threshold : ℚ) (s : ProfState) :
    List RegressionEntry :=
  regressionsOf baseline threshold (get_profile_report s none).operations

/-- The regression scan as the claim describes it: flag exactly the
operations present in both snapshots whose ratio `current.avg/baseline.avg`
strictly exceeds the threshold (no separate `base_time > 0` guard). -/
def regressionsClaimed (baseline : Report) (threshold : ℚ)
    (ops : List (String × OpReport)) : List RegressionEntry :=
  ops.filterMap (fun e =>
    match lookupOp e.1 baseline.operations with
    | none => none
    | some b =>
      if threshold < e.2.avg_time_ms / b.avg_time_ms then
        some { operation := e.1, baseline_ms := b.avg_time_ms,
               actual_ms := e.2.avg_time_ms,
               slowdown_factor := e.2.avg_time_ms / b.avg_time_ms,
               causes := ["Increased data size", "Change in algorithm"] }
      else none)

/-- Core of `get_recommendations` (`src/corepy/profiler/core.py`, lines
237-253): each produced record is a key/value sequence whose keys are
exactly the dict literal's keys, in order — note the last key is
`"code_example"`. -/
def recommendationsOf (ops : List (String × OpReport)) :
    List (List (String × String)) :=
  ops.filterMap (fun e =>
    if e.1 = "matmul" ∧ e.2.primary_backend = "CPU" ∧ 10 < e.2.avg_time_ms then
      some [("priority", "HIGH"),
            ("title", "Enable GPU for Matrix Multiplication"),
            ("description",
              "Matmul is taking " ++ fmtFixed 1 e.2.avg_time_ms ++ "ms on CPU."),
            ("estimated_speedup", "10x-50x"),
            ("code_example", "x.to('cuda')")]
    else none)

/-- `get_recommendations()` from `src/corepy/profiler/core.py`: reads the
current global snapshot. -/
def get_recommendations (s : ProfState) : List (List (String × String)) :=
  recommendationsOf (get_profile_report s none).operations

/-- Concrete profiler state: one `"add"` recorded for 5 ms. -/
def sOneAdd : ProfState := record "add" 5 "CPU" (enable_profiling initState)

/-- Concrete profiler state: one `"matmul"` recorded for 20 ms on CPU. -/
def sMatmul20 : ProfState := record "matmul" 20 "CPU" (enable_profiling initState)

/-- Concrete profiler state: one `"matmul"` recorded for 3 ms on CPU
(current snapshot's `avg_time_ms` is 3). -/
def sMatmul3 : ProfState := record "matmul" 3 "CPU" (enable_profiling initState)

/-- Concrete baseline snapshot: `"matmul"` with `avg_time_ms = 1`. -/
def baselineMatmul1 : Report :=
  { session_id := "base",
    operations := [("matmul",
      { operation := "matmul", count := 1, total_time_ms := 1, avg_time_ms := 1,
        min_time_ms := 1, max_time_ms := 1, primary_backend := "CPU",
        percent_total := 100 })],
    total_time_ms := 1 }

/-!
## Exporters and text formatting
-/

/-- A CSV cell: `csv.DictWriter` writes the string or number stored under
each column's key. -/
inductive CsvCell
  | str (s : String)
  | nat (n : Nat)
  | rat (q : ℚ)
deriving DecidableEq, Repr

/-- The fixed CSV column list of `export_profile(format='csv')`
(`src/corepy/profiler/core.py`, line 135), in order. -/
def csvColumns : List String :=
  ["operation", "count", "total_time_ms", "avg_time_ms", "min_time_ms",
   "max_time_ms", "primary_backend", "percent_total"]

/-- One CSV data row: the operation's values under `csvColumns`, in that
order (`row = {k: op.get(k, 0) for k in keys}` handed to the writer). -/
def csvRow (op : OpReport) : List CsvCell :=
  [.str op.operation, .nat op.count, .rat op.total_time_ms, .rat op.avg_time_ms,
   .rat op.min_time_ms, .rat op.max_time_ms, .str op.primary_backend,
   .rat op.percent_total]

/-- `export_profile(filename, format='csv', context)` from
`src/corepy/profiler/core.py` (lines 129-142), as the rows written to the
file: the header row then one row per operation — or `none` when the
snapshot's operations map is empty (the code returns before opening the
file, so no output is produced at all). -/
def export_profile_csv (s : ProfState) (context : Option String) :
    Option (List (List CsvCell)) :=
  let report := get_profile_report s context
  if report.operations.isEmpty then none
  else
    some ((csvColumns.map CsvCell.str) ::
      report.operations.map (fun e => csvRow e.2))

/-- `n` copies of character `c` (Python `"=" * 80`). -/
def repChar (c : Char) (n : Nat) : String := ⟨List.replicate n c⟩

/-- Python's `{:<w}` format: left-justify by padding with spaces to width
`w` (never truncates). -/
def padTo (w : Nat) (s : String) : String :=
  s ++ ⟨List.replicate (w - s.length) ' '⟩

/-- One operation row of the table text
(`f"{name:<20} {count:<8} {total:<10.2f} {avg:<10.3f} {percent:<6.1f} {backend}"`). -/
def tableRow (op : OpReport) : String :=
  padTo 20 op.operation ++ " " ++ padTo 8 (natStr op.count) ++ " " ++
    padTo 10 (fmtFixed 2 op.total_time_ms) ++ " " ++
    padTo 10 (fmtFixed 3 op.avg_time_ms) ++ " " ++
    padTo 6 (fmtFixed 1 op.percent_total) ++ " " ++ op.primary_backend

/-- `ops.sort(key=lambda x: x.get('total_time_ms', 0), reverse=True)` —
Python's stable sort, descending by total time (ties keep their order;
`mergeSort` is likewise stable). -/
def sortOpsDesc (ops : List OpReport) : List OpReport :=
  ops.mergeSort (fun a b => decide (b.total_time_ms ≤ a.total_time_ms))

/-- The lines of `profile_report`'s table text (core.py lines 87-110):
banner, total header, optional context line (Python `if context:` — only a
nonempty string is truthy), banner, column header, rule, one row per
operation sorted by descending total time, banner. -/
def tableLines (report : Report) (context : Option String) : List String :=
  [repChar '=' 80,
   "COREPY PROFILE REPORT (Total: " ++ fmtFixed 2 report.total_time_ms ++ "ms)"] ++
    (match context with
     | some c => if c = "" then [] else ["Context: " ++ c]
     | none => []) ++
    [repChar '=' 80,
     padTo 20 "Operation" ++ " " ++ padTo 8 "Count" ++ " " ++
       padTo 10 "Total(ms)" ++ " " ++ padTo 10 "Avg(ms)" ++ " " ++
       padTo 6 "%" ++ " " ++ "Backend",
     repChar '-' 80] ++
    (sortOpsDesc (report.operations.map Prod.snd)).map tableRow ++
    [repChar '=' 80]

/-- The table text: the lines joined with newlines. -/
def renderTable (report : Report) (context : Option String) : String :=
  String.intercalate "\n" (tableLines report context)

/-- `profile_report`'s possible results: the dict snapshot, the raw JSON
string (produced inside the Rust extension, so carried here as the
snapshot it serializes), or formatted text. -/
inductive ReportOutput
  | dict (r : Report)
  | jsonStr (r : Report)
  | text (s : String)
deriving DecidableEq

/-- `profile_report(context, format)` from `src/corepy/profiler/core.py`
(lines 67-111): `'dict'` returns the parsed snapshot, `'json'` the raw
JSON string, and every other format value — `'table'`, `'compact'`, or
any unrecognized string — falls through to the table text; no format
validation is performed and no error is raised. -/
def profile_report (s : ProfState) (context : Option String) (format : String) :
    ReportOutput :=
  let data := get_profile_report s context
  if format = "dict" then .dict data
  else if format = "json" then .jsonStr data
  else .text (renderTable data context)

/-!
## JSON serialization layer

`export_profile(format='json')` hands the dict snapshot to the standard
`json` module (`json.dump(report, f, indent=2)`), and reloading goes
through `json.loads`. That external boundary is modelled by an explicit
printer/parser pair over the JSON values a report snapshot consists of:
objects, strings and (decimal) numbers. A number is carried as a decimal
mantissa/exponent pair, which is exactly the information a JSON numeral
encodes; strings escape the quote and backslash, the only escapes the
snapshot's strings can require.
-/

/-- JSON values as they occur in report snapshots: strings, decimal
numbers `m·10^e`, and objects. -/
inductive Json
  | str (s : String)
  | num (m : Int) (e : Int)
  | obj (members : List (String × Json))

/-- `true` iff `c` is a decimal digit `'0'..'9'`. -/
def isDigitCh (c : Char) : Bool :=
  decide (48 ≤ c.toNat) && decide (c.toNat ≤ 57)

/-- Escape one character for a JSON string literal. -/
def escapeChar (c : Char) : List Char :=
  if c = '"' ∨ c = '\\' then ['\\', c] else [c]

/-- Escape a character sequence for a JSON string literal. -/
def escapeList : List Char → List Char
  | [] => []
  | c :: rest => escapeChar c ++ escapeList rest

/-- A JSON string literal, quotes included. -/
def dumpStr (s : String) : List Char := '"' :: (escapeList s.data ++ ['"'])

/-- Decimal digits of an integer, with sign. -/
def intDigits (i : Int) : List Char :=
  if i < 0 then '-' :: natDigits i.natAbs else natDigits i.natAbs

/-- A JSON numeral for `m·10^e`: the mantissa, then `e<exponent>` when the
exponent is nonzero. -/
def dumpNum (m e : Int) : List Char :=
  intDigits m ++ (if e = 0 then [] else 'e' :: intDigits e)

mutual

/-- Serialize a JSON value (compact rendering; `json.dump`'s `indent=2`
only adds whitespace, which `json.loads` ignores). -/
def dumpValue : Json → List Char
  | .str s => dumpStr s
  | .num m e => dumpNum m e
  | .obj l => '{' :: (dumpMembers l ++ ['}'])

/-- Serialize an object's members, comma-separated. -/
def dumpMembers : List (String × Json) → List Char
  | [] => []
  | (k, v) :: rest =>
    dumpStr k ++ (':' :: dumpValue v) ++
      (match rest with
       | [] => []
       | _ :: _ => ',' :: dumpMembers rest)

end

mutual

/-- Structural size of a JSON value, used as the parser's recursion
budget. -/
def sizeJ : Json → Nat
  | .str _ => 1
  | .num _ _ => 1
  | .obj l => 1 + sizeM l

/-- Structural size of an object's member list. -/
def sizeM : List (String × Json) → Nat
  | [] => 1
  | (_, v) :: rest => 1 + sizeJ v + sizeM rest

end

/-- Consume a maximal run of digits, folding them onto `acc`. -/
def parseDigitsFrom (acc : Nat) : List Char → Nat × List Char
  | [] => (acc, [])
  | c :: rest =>
    if isDigitCh c then parseDigitsFrom (10 * acc + (c.toNat - 48)) rest
    else (acc, c :: rest)

/-- Parse a natural numeral (at least one digit). -/
def parseNat (cs : List Char) : Option (Nat × List Char) :=
  match cs with
  | [] => none
  | c :: _ => if isDigitCh c then some (parseDigitsFrom 0 cs) else none

/-- Parse an integer numeral with optional leading minus. -/
def parseInt (cs : List Char) : Option (Int × List Char) :=
  match cs with
  | [] => none
  | c :: rest =>
    if c = '-' then
      match parseNat rest with
      | none => none
      | some (n, r) => some (-(n : Int), r)
    else
      match parseNat cs with
      | none => none
      | some (n, r) => some ((n : Int), r)

/-- Parse a JSON numeral: mantissa, then an optional `e`-exponent. -/
def parseNum (cs : List Char) : Option (Int × Int × List Char) :=
  match parseInt cs with
  | none => none
  | some (m, r1) =>
    match r1 with
    | [] => some (m, 0, [])
    | c :: r2 =>
      if c = 'e' then
        match parseInt r2 with
        | none => none
        | some (e, r3) => some (m, e, r3)
      else some (m, 0, c :: r2)

/-- Parse the body of a string literal (after the opening quote) up to the
closing quote, undoing the escapes `dumpStr` can emit. -/
def parseStrChars : List Char → Option (List Char × List Char)
  | [] => none
  | c :: rest =>
    if c = '"' then some ([], rest)
    else if c = '\\' then
      match rest with
      | [] => none
      | d :: rest2 =>
        if d = '"' ∨ d = '\\' then
          match parseStrChars rest2 with
          | none => none
          | some (s, r) => some (d :: s, r)
        else none
    else
      match parseStrChars rest with
      | none => none
      | some (s, r) => some (c :: s, r)

mutual

/-- Parse one JSON value; the fuel bounds the nesting structure (any fuel
at least the value's `sizeJ` works). -/
def parseValue : Nat → List Char → Option (Json × List Char)
  | 0, _ => none
  | fuel + 1, cs =>
    match cs with
    | [] => none
    | c :: rest =>
      if c = '"' then
        match parseStrChars rest with
        | none => none
        | some (s, r) => some (.str ⟨s⟩, r)
      else if c = '{' then
        match parseMembers fuel rest with
        | none => none
        | some (l, r) => some (.obj l, r)
      else
        match parseNum (c :: rest) with
        | none => none
        | some (m, e, r) => some (.num m e, r)

/-- Parse an object's members up to and including the closing brace. -/
def parseMembers : Nat → List Char → Option (List (String × Json) × List Char)
  | 0, _ => none
  | fuel + 1, cs =>
    match cs with
    | [] => none
    | c :: rest =>
      if c = '}' then some ([], rest)
      else if c = '"' then
        match parseStrChars rest with
        | none => none
        | some (k, r1) =>
          match r1 with
          | [] => none
          | c2 :: r2 =>
            if c2 = ':' then
              match parseValue fuel r2 with
              | none => none
              | some (v, r3) =>
                match r3 with
                | [] => none
                | c3 :: r4 =>
                  if c3 = ',' then
                    match parseMembers fuel r4 with
                    | none => none
                    | some (ms, r5) => some ((⟨k⟩, v) :: ms, r5)
                  else if c3 = '}' then some ([(⟨k⟩, v)], r4)
                  else none
            else none
      else none

end

/-- The serialized snapshot, as a string. -/
def json_dumps (j : Json) : String := ⟨dumpValue j⟩

/-- `export_profile(filename, format='json')` from
`src/corepy/profiler/core.py` (lines 125-127): the file's content is the
snapshot serialized by the `json` module. -/
def export_profile_json (report : Json) : String := json_dumps report

/-- `json.loads`: parse a complete JSON document (trailing data is an
error). -/
def json_loads (s : String) : Option Json :=
  match parseValue (s.data.length + 1) s.data with
  | some (j, []) => some j
  | _ => none

/-- `cs` does not start with a digit (a numeral before it cannot be
extended into it). -/
def noDigitHead (cs : List Char) : Prop :=
  ∀ c cs', cs = c :: cs' → isDigitCh c = false

/-- `cs` starts with neither a digit nor `e`: a serialized numeral
followed by `cs` parses back to exactly that numeral. -/
def numOk (cs : List Char) : Prop :=
  ∀ c cs', cs = c :: cs' → isDigitCh c = false ∧ c ≠ 'e'

end Corepy

namespace Corepy

/-- C1: counterexample to the claim as stated — `matmul` on operands whose
`BackendType`s differ does not fail with `BackendError`; it dispatches and
produces a result tensor. -/
theorem matmul_mismatch_produces_result :
    matmul kernelFst tCPU tGPU =
      .ok { shape := [2], data := [1, 2], backend := .CPU } := by
  rfl

/-- C1 (amended): when the two operands of an elementwise binary operation
(`add`, `sub`, `mul`, `div` all route through `_binary_op`) disagree on
`BackendType`, the operation fails with `BackendError` and produces no
result; `matmul` performs no such check and returns a result tensor on the
left operand's backend. -/
theorem binary_op_backend_mismatch (kernel : Kernel) (op : String)
    (self other : Tensor) (h : self.backend ≠ other.backend) :
    binary_op kernel op self other =
      .error (.backendError
        ("Backend mismatch: " ++ self.backend.show ++ " vs " ++ other.backend.show)) ∧
      ∃ t : Tensor, matmul kernel self other = .ok t ∧ t.backend = self.backend := by
  refine ⟨?_, ?_⟩
  · unfold binary_op
    rw [if_pos (fun he => h he.symm)]
  · exact ⟨_, rfl, rfl⟩

/-- C1: witness — the amended theorem applied at concrete mismatched
operands. -/
theorem binary_op_backend_mismatch_witness :
    binary_op kernelFst "add" tCPU tGPU =
      .error (.backendError
        ("Backend mismatch: " ++ tCPU.backend.show ++ " vs " ++ tGPU.backend.show)) ∧
      ∃ t : Tensor, matmul kernelFst tCPU tGPU = .ok t ∧ t.backend = tCPU.backend :=
  binary_op_backend_mismatch kernelFst "add" tCPU tGPU (by decide)

/-- C2: while profiling is disabled, `record` short-circuits, so running
any sequence of operations leaves the profiler state — in particular every
`OperationRecord.count` in the aggregate table — exactly unchanged. -/
theorem runOps_disabled_noop (ops : List (String × ℚ × String)) (s : ProfState)
    (h : s.enabled = false) :
    runOps ops s = s ∧
      (runOps ops s).table.map (fun e => e.2.count) =
        s.table.map (fun e => e.2.count) := by
  have hrun : runOps ops s = s := by
    induction ops with
    | nil => rfl
    | cons o os ih =>
      have hrec : record o.1 o.2.1 o.2.2 s = s := by
        simp [record, h]
      simpa [runOps, hrec] using ih
  exact ⟨hrun, by rw [hrun]⟩

/-- C2: witness — the theorem applied to the initial (disabled) state with
a nonempty operation sequence. -/
theorem runOps_disabled_noop_witness :
    runOps [("add", 1, "CPU"), ("mul", 2, "GPU")] initState = initState ∧
      (runOps [("add", 1, "CPU"), ("mul", 2, "GPU")] initState).table.map
          (fun e => e.2.count) =
        initState.table.map (fun e => e.2.count) :=
  runOps_disabled_noop [("add", 1, "CPU"), ("mul", 2, "GPU")] initState rfl

/-- C3: evaluation of the code at the failing input. After the nested
`with ProfileContext("inner")` block exits, `__exit__` has set the context
to `None` — not back to `"outer"` — so the `"add"` operation recorded
afterwards inside the enclosing scope is tagged with no context: the table
holds an `("add", none)` entry and no `("add", some "outer")` entry. -/
theorem nested_context_lost :
    nestedProgram.1.context = none ∧
      nestedProgram.1.table =
        [(("mul", some "inner"), freshRecord 1 "CPU"),
         (("add", none), freshRecord 1 "CPU")] := by
  constructor <;> rfl

theorem lookupOp_mem {n : String} {b : OpReport} :
    ∀ {l : List (String × OpReport)}, lookupOp n l = some b → (n, b) ∈ l := by
  intro l
  induction l with
  | nil => intro h; cases h
  | cons e rest ih =>
    obtain ⟨m, r⟩ := e
    intro h
    simp only [lookupOp] at h
    by_cases he : m = n
    · rw [if_pos he] at h
      obtain rfl : r = b := by injection h
      subst he
      exact List.mem_cons_self _ _
    · rw [if_neg he] at h
      exact List.mem_cons_of_mem _ (ih h)

theorem percent_total_of_mem {s : ProfState} {filt : Option String}
    {op : String × OpReport} (h : op ∈ (get_profile_report s filt).operations) :
    op.2.percent_total =
      if 0 < (get_profile_report s filt).total_time_ms then
        100 * op.2.total_time_ms / (get_profile_report s filt).total_time_ms
      else 0 := by
  simp only [get_profile_report, List.mem_map] at h
  obtain ⟨e, _, rfl⟩ := h
  simp [opReport, get_profile_report]

theorem filter_then_map_eq_filterMap {α β : Type} (p : α → Bool) (f : α → β)
    (l : List α) :
    (l.filter p).map f = l.filterMap (fun a => if p a then some (f a) else none) := by
  induction l with
  | nil => rfl
  | cons a l ih =>
    by_cases h : p a <;> simp [List.filter_cons, List.filterMap_cons, h, ih]

theorem sOneAdd_report_total : (get_profile_report sOneAdd none).total_time_ms = 5 := by
  simp [get_profile_report, aggEntries, sOneAdd, record, enable_profiling, initState,
    tableInsert, insertEntry, freshRecord]

theorem sOneAdd_report_ops :
    (get_profile_report sOneAdd none).operations =
      [("add", opReport "add" (freshRecord 5 "CPU") 5)] := by
  simp [get_profile_report, aggEntries, sOneAdd, record, enable_profiling, initState,
    tableInsert, insertEntry, freshRecord]

/-- C4: counterexample to the claim as stated — in the snapshot holding a
single `"add"` record of 5 ms, the record's `percent_total` is `100`
(0–100 percentage scale), not `total_time / Σ total_time = 1`. -/
theorem percent_total_not_fraction :
    ¬ (∀ op ∈ (get_profile_report sOneAdd none).operations,
        0 < (get_profile_report sOneAdd none).total_time_ms →
          op.2.percent_total =
            op.2.total_time_ms / (get_profile_report sOneAdd none).total_time_ms) := by
  intro h
  have hx := h ("add", opReport "add" (freshRecord 5 "CPU") 5)
    (by rw [sOneAdd_report_ops]; exact List.mem_singleton_self _)
    (by rw [sOneAdd_report_total]; norm_num)
  rw [sOneAdd_report_total] at hx
  norm_num [opReport, freshRecord] at hx

/-- C4 (amended): for every record in a report snapshot with grand total
time > 0, `percent_total = 100 * total_time(record) / Σ total_time(all
records)` — a percentage on the 0–100 scale, not a fraction of 1. -/
theorem percent_total_scale (s : ProfState) (filt : Option String)
    (h : 0 < (get_profile_report s filt).total_time_ms) :
    ∀ op ∈ (get_profile_report s filt).operations,
      op.2.percent_total =
        100 * op.2.total_time_ms / (get_profile_report s filt).total_time_ms := by
  intro op hop
  rw [percent_total_of_mem hop, if_pos h]

/-- C4: witness — the amended theorem applied to the one-record snapshot. -/
theorem percent_total_scale_witness :
    0 < (get_profile_report sOneAdd none).total_time_ms ∧
      ∀ op ∈ (get_profile_report sOneAdd none).operations,
        op.2.percent_total =
          100 * op.2.total_time_ms / (get_profile_report sOneAdd none).total_time_ms :=
  ⟨by rw [sOneAdd_report_total]; norm_num, percent_total_scale sOneAdd none
    (by rw [sOneAdd_report_total]; norm_num)⟩

/-- C5: `detect_bottlenecks(threshold)` returns exactly the records whose
time share `total_time / grand_total` strictly exceeds the threshold, each
with severity `CRITICAL` when the share exceeds `0.5` and `HIGH`
otherwise; and `detect_bottlenecks(0)` returns every record with
`percent_total > 0`. -/
theorem detect_bottlenecks_exact (θ : ℚ) (s : ProfState)
    (hg : 0 < (get_profile_report s none).total_time_ms) :
    detect_bottlenecks θ s =
      ((get_profile_report s none).operations.filter (fun e =>
          decide (θ < e.2.total_time_ms / (get_profile_report s none).total_time_ms))).map
        (bottleneckClaimed (get_profile_report s none).total_time_ms) ∧
      (detect_bottlenecks 0 s).map (fun b => b.operation) =
        ((get_profile_report s none).operations.filter
            (fun e => decide (0 < e.2.percent_total))).map (fun e => e.2.operation) := by
  have h100 : (100 : ℚ) ≠ 0 := by norm_num
  constructor
  · rw [filter_then_map_eq_filterMap]
    unfold detect_bottlenecks bottlenecksOf
    apply List.filterMap_congr
    intro e he
    have hp : e.2.percent_total =
        100 * e.2.total_time_ms / (get_profile_report s none).total_time_ms := by
      rw [percent_total_of_mem he, if_pos hg]
    have hdiv : e.2.percent_total / 100 =
        e.2.total_time_ms / (get_profile_report s none).total_time_ms := by
      rw [hp, div_div, mul_comm (get_profile_report s none).total_time_ms 100,
        mul_div_mul_left _ _ h100]
    have hmul : e.2.percent_total / 100 * 100 = e.2.percent_total :=
      div_mul_cancel₀ _ h100
    simp only [bottleneckClaimed, decide_eq_true_eq]
    rw [hmul, hdiv]
  · unfold detect_bottlenecks bottlenecksOf
    rw [List.map_filterMap, filter_then_map_eq_filterMap]
    apply List.filterMap_congr
    intro e _
    have hiff : (0 < e.2.percent_total / 100) ↔ (0 < e.2.percent_total) := by
      rw [lt_div_iff₀ (by norm_num : (0 : ℚ) < 100), zero_mul]
    by_cases h : 0 < e.2.percent_total
    · simp [h, hiff.mpr h]
    · simp [h, fun hh => h (hiff.mp hh)]

/-- C5: witness — the theorem applied at the default threshold `0.20` to
the one-record snapshot. -/
theorem detect_bottlenecks_exact_witness :
    0 < (get_profile_report sOneAdd none).total_time_ms ∧
      (detect_bottlenecks (1 / 5) sOneAdd =
        ((get_profile_report sOneAdd none).operations.filter (fun e =>
            decide ((1 / 5 : ℚ) <
              e.2.total_time_ms / (get_profile_report sOneAdd none).total_time_ms))).map
          (bottleneckClaimed (get_profile_report sOneAdd none).total_time_ms) ∧
        (detect_bottlenecks 0 sOneAdd).map (fun b => b.operation) =
          ((get_profile_report sOneAdd none).operations.filter
              (fun e => decide (0 < e.2.percent_total))).map (fun e => e.2.operation)) :=
  ⟨by rw [sOneAdd_report_total]; norm_num,
   detect_bottlenecks_exact (1 / 5) sOneAdd (by rw [sOneAdd_report_total]; norm_num)⟩

/-- C6: `detect_regressions(baseline, threshold)` flags exactly the
operations present in both snapshots whose ratio
`current.avg / baseline.avg` strictly exceeds the threshold, reporting
`slowdown_factor` equal to that ratio (for any nonnegative threshold and
baseline with nonnegative averages, the code's extra `base_time > 0` guard
changes nothing). -/
theorem detect_regressions_exact (baseline : Report) (θ : ℚ) (s : ProfState)
    (hθ : 0 ≤ θ) (hbase : ∀ e ∈ baseline.operations, 0 ≤ e.2.avg_time_ms) :
    detect_regressions baseline θ s =
      regressionsClaimed baseline θ (get_profile_report s none).operations := by
  unfold detect_regressions regressionsOf regressionsClaimed
  apply List.filterMap_congr
  intro e _
  cases hb : lookupOp e.1 baseline.operations with
  | none => rfl
  | some b =>
    have hbnn : 0 ≤ b.avg_time_ms := hbase _ (lookupOp_mem hb)
    by_cases hr : θ < e.2.avg_time_ms / b.avg_time_ms
    · have hbpos : 0 < b.avg_time_ms := by
        rcases hbnn.lt_or_eq with hlt | heq
        · exact hlt
        · exfalso
          rw [← heq, div_zero] at hr
          exact absurd (lt_of_le_of_lt hθ hr) (lt_irrefl 0)
      simp [hbpos, hr]
    · simp [hr]

/-- C6: witness — baseline avg 1.0 ms, current avg 3.0 ms, threshold 1.2:
the operation is flagged with `slowdown_factor = 3.0`. -/
theorem detect_regressions_exact_witness :
    (0 : ℚ) ≤ 6 / 5 ∧
      (∀ e ∈ baselineMatmul1.operations, 0 ≤ e.2.avg_time_ms) ∧
      detect_regressions baselineMatmul1 (6 / 5) sMatmul3 =
        regressionsClaimed baselineMatmul1 (6 / 5)
          (get_profile_report sMatmul3 none).operations ∧
      detect_regressions baselineMatmul1 (6 / 5) sMatmul3 =
        [{ operation := "matmul", baseline_ms := 1, actual_ms := 3,
           slowdown_factor := 3,
           causes := ["Increased data size", "Change in algorithm"] }] :=
  ⟨by norm_num,
   by intro e he; simp [baselineMatmul1] at he; simp [he],
   detect_regressions_exact baselineMatmul1 (6 / 5) sMatmul3 (by norm_num)
     (by intro e he; simp [baselineMatmul1] at he; simp [he]),
   by
    have hops : (get_profile_report sMatmul3 none).operations =
        [("matmul", opReport "matmul" (freshRecord 3 "CPU") 3)] := by
      simp [get_profile_report, aggEntries, sMatmul3, record, enable_profiling,
        initState, tableInsert, insertEntry, freshRecord]
    unfold detect_regressions regressionsOf
    rw [hops]
    norm_num [baselineMatmul1, lookupOp, opReport, freshRecord,
      List.filterMap_cons, List.filterMap_nil]⟩

theorem sMatmul20_report_ops :
    (get_profile_report sMatmul20 none).operations =
      [("matmul", opReport "matmul" (freshRecord 20 "CPU") 20)] := by
  simp [get_profile_report, aggEntries, sMatmul20, record, enable_profiling,
    initState, tableInsert, insertEntry, freshRecord]

/-- C7: counterexample to the claim as stated — with a `matmul` record on
CPU averaging above 10 ms, a recommendation record is produced, but none
of the produced records has a field named `example` (the code's key is
`code_example`). -/
theorem recommendations_missing_example :
    get_recommendations sMatmul20 ≠ [] ∧
      ¬ (∀ r ∈ get_recommendations sMatmul20, "example" ∈ r.map Prod.fst) := by
  have hrec : get_recommendations sMatmul20 =
      [[("priority", "HIGH"),
        ("title", "Enable GPU for Matrix Multiplication"),
        ("description", "Matmul is taking " ++ fmtFixed 1 (20 : ℚ) ++ "ms on CPU."),
        ("estimated_speedup", "10x-50x"),
        ("code_example", "x.to('cuda')")]] := by
    unfold get_recommendations recommendationsOf
    rw [sMatmul20_report_ops]
    norm_num [List.filterMap_cons, List.filterMap_nil, opReport, freshRecord,
      primaryBackend]
  constructor
  · rw [hrec]; simp
  · rw [hrec]
    intro h
    have hx := h _ (List.mem_singleton_self _)
    simp at hx

/-- C7 (amended): every element of `get_recommendations()` is a record
with the fields `priority`, `title`, `description`, `estimated_speedup`
and `code_example` (not `example`); when the snapshot contains a `matmul`
record with `primary_backend = "CPU"` and `avg_time_ms > 10`, the result
is nonempty. -/
theorem get_recommendations_fields (s : ProfState) :
    (∀ r ∈ get_recommendations s,
        r.map Prod.fst =
          ["priority", "title", "description", "estimated_speedup", "code_example"]) ∧
      ∀ e ∈ (get_profile_report s none).operations,
        e.1 = "matmul" → e.2.primary_backend = "CPU" → 10 < e.2.avg_time_ms →
          get_recommendations s ≠ [] := by
  constructor
  · intro r hr
    unfold get_recommendations recommendationsOf at hr
    rw [List.mem_filterMap] at hr
    obtain ⟨e, _, hfe⟩ := hr
    by_cases hc : e.1 = "matmul" ∧ e.2.primary_backend = "CPU" ∧ 10 < e.2.avg_time_ms
    · rw [if_pos hc] at hfe
      obtain rfl : _ = r := by injection hfe
      rfl
    · rw [if_neg hc] at hfe
      cases hfe
  · intro e he h1 h2 h3
    apply List.ne_nil_of_mem
      (a := [("priority", "HIGH"),
        ("title", "Enable GPU for Matrix Multiplication"),
        ("description", "Matmul is taking " ++ fmtFixed 1 e.2.avg_time_ms ++ "ms on CPU."),
        ("estimated_speedup", "10x-50x"),
        ("code_example", "x.to('cuda')")])
    unfold get_recommendations recommendationsOf
    rw [List.mem_filterMap]
    exact ⟨e, he, by rw [if_pos ⟨h1, h2, h3⟩]⟩

/-- C7: witness — the amended theorem applied to the snapshot with a
`matmul` record on CPU averaging 20 ms. -/
theorem get_recommendations_fields_witness :
    (∀ r ∈ get_recommendations sMatmul20,
        r.map Prod.fst =
          ["priority", "title", "description", "estimated_speedup", "code_example"]) ∧
      get_recommendations sMatmul20 ≠ [] :=
  ⟨(get_recommendations_fields sMatmul20).1,
   (get_recommendations_fields sMatmul20).2
     ("matmul", opReport "matmul" (freshRecord 20 "CPU") 20)
     (by rw [sMatmul20_report_ops]; exact List.mem_singleton_self _)
     rfl
     (by norm_num [opReport, freshRecord, primaryBackend])
     (by norm_num [opReport, freshRecord])⟩

/-- C8: `export_profile(format='csv')` produces no output when the
snapshot's operations map is empty, and otherwise writes the fixed header
`{operation, count, total_time_ms, avg_time_ms, min_time_ms, max_time_ms,
primary_backend, percent_total}` followed by exactly one row per
operation, each row holding that operation's values under those columns in
that order. -/
theorem export_profile_csv_rows (s : ProfState) (ctx : Option String) :
    ((get_profile_report s ctx).operations = [] → export_profile_csv s ctx = none) ∧
      ((get_profile_report s ctx).operations ≠ [] →
        export_profile_csv s ctx =
          some ((csvColumns.map CsvCell.str) ::
            (get_profile_report s ctx).operations.map (fun e => csvRow e.2)) ∧
          ∀ op ∈ (get_profile_report s ctx).operations,
            (csvRow op.2).length = csvColumns.length) := by
  constructor
  · intro h
    simp [export_profile_csv, List.isEmpty_iff, h]
  · intro h
    refine ⟨?_, ?_⟩
    · simp [export_profile_csv, List.isEmpty_iff, h]
    · intro op _
      rfl

/-- C8: witness — no output for the empty snapshot; header plus one row
for the one-operation snapshot. -/
theorem export_profile_csv_rows_witness :
    (get_profile_report initState none).operations = [] ∧
      export_profile_csv initState none = none ∧
      (get_profile_report sOneAdd none).operations ≠ [] ∧
      export_profile_csv sOneAdd none =
        some ((csvColumns.map CsvCell.str) ::
          (get_profile_report sOneAdd none).operations.map (fun e => csvRow e.2)) := by
  have hempty : (get_profile_report initState none).operations = [] := by
    simp [get_profile_report, aggEntries, initState]
  have hne : (get_profile_report sOneAdd none).operations ≠ [] := by
    rw [sOneAdd_report_ops]; simp
  exact ⟨hempty, (export_profile_csv_rows initState none).1 hempty, hne,
    ((export_profile_csv_rows sOneAdd none).2 hne).1⟩

/-- C10: for every format other than `'dict'` and `'json'` — including
`'compact'` and any unrecognized string — `profile_report` returns the
table text (whose first line is the `=`-banner and whose rows are sorted
by descending total time); the function is total, so no error is raised. -/
theorem profile_report_fallthrough (s : ProfState) (ctx : Option String)
    (format : String) (h1 : format ≠ "dict") (h2 : format ≠ "json") :
    profile_report s ctx format =
      .text (renderTable (get_profile_report s ctx) ctx) ∧
      (tableLines (get_profile_report s ctx) ctx).head? = some (repChar '=' 80) ∧
      List.Pairwise (fun a b : OpReport => b.total_time_ms ≤ a.total_time_ms)
        (sortOpsDesc ((get_profile_report s ctx).operations.map Prod.snd)) := by
  refine ⟨?_, rfl, ?_⟩
  · simp [profile_report, h1, h2]
  · have htrans : ∀ a b c : OpReport,
        (decide (b.total_time_ms ≤ a.total_time_ms)) = true →
          (decide (c.total_time_ms ≤ b.total_time_ms)) = true →
          (decide (c.total_time_ms ≤ a.total_time_ms)) = true := by
      intro a b c hab hbc
      simp only [decide_eq_true_eq] at *
      exact le_trans hbc hab
    have htotal : ∀ a b : OpReport,
        ((decide (b.total_time_ms ≤ a.total_time_ms)) ||
          (decide (a.total_time_ms ≤ b.total_time_ms))) = true := by
      intro a b
      simp [le_total]
    have hs := List.sorted_mergeSort htrans htotal
      ((get_profile_report s ctx).operations.map Prod.snd)
    unfold sortOpsDesc
    exact hs.imp (fun h => by simpa using h)

/-- C10: witness — the theorem applied at the unrecognized format
`"compact"`. -/
theorem profile_report_fallthrough_witness :
    ("compact" : String) ≠ "dict" ∧ ("compact" : String) ≠ "json" ∧
      (profile_report sOneAdd none "compact" =
        .text (renderTable (get_profile_report sOneAdd none) none) ∧
        (tableLines (get_profile_report sOneAdd none) none).head? =
          some (repChar '=' 80) ∧
        List.Pairwise (fun a b : OpReport => b.total_time_ms ≤ a.total_time_ms)
          (sortOpsDesc ((get_profile_report sOneAdd none).operations.map Prod.snd))) :=
  ⟨by decide, by decide,
   profile_report_fallthrough sOneAdd none "compact" (by decide) (by decide)⟩

theorem digitChar_facts {d : Nat} (hd : d < 10) :
    isDigitCh (digitChar d) = true ∧ (digitChar d).toNat = 48 + d := by
  interval_cases d <;> exact ⟨by decide, by decide⟩

theorem isDigitCh_ne {c : Char} (h : isDigitCh c = true) :
    c ≠ '"' ∧ c ≠ '{' ∧ c ≠ '-' := by
  refine ⟨?_, ?_, ?_⟩ <;> intro he <;> subst he <;> exact absurd h (by decide)

theorem natDigitsAux_head : ∀ fuel n, n < fuel →
    ∃ c cs, natDigitsAux fuel n = c :: cs ∧ isDigitCh c = true := by
  intro fuel
  induction fuel with
  | zero => intro n h; omega
  | succ fuel ih =>
    intro n h
    by_cases h10 : n < 10
    · exact ⟨digitChar n, [], by simp [natDigitsAux, h10], (digitChar_facts h10).1⟩
    · have hlt : n / 10 < fuel := by
        have := Nat.div_lt_self (by omega : 0 < n) (by omega : 1 < 10)
        omega
      obtain ⟨c, cs, hcs, hdig⟩ := ih (n / 10) hlt
      exact ⟨c, cs ++ [digitChar (n % 10)], by simp [natDigitsAux, h10, hcs], hdig⟩

theorem parseDigitsFrom_stop {rest : List Char} (h : noDigitHead rest) (acc : Nat) :
    parseDigitsFrom acc rest = (acc, rest) := by
  cases rest with
  | nil => rfl
  | cons c r =>
    have hc := h c r rfl
    simp [parseDigitsFrom, hc]

theorem parseDigitsFrom_digits : ∀ fuel n acc rest, n < fuel →
    parseDigitsFrom acc (natDigitsAux fuel n ++ rest) =
      parseDigitsFrom (acc * 10 ^ (natDigitsAux fuel n).length + n) rest := by
  intro fuel
  induction fuel with
  | zero => intro n acc rest h; omega
  | succ fuel ih =>
    intro n acc rest h
    by_cases h10 : n < 10
    · have hfacts := digitChar_facts h10
      simp only [natDigitsAux, if_pos h10, List.singleton_append, List.length_cons,
        List.length_nil, parseDigitsFrom, hfacts.1, hfacts.2, if_true]
      congr 1
      omega
    · have hlt : n / 10 < fuel := by
        have := Nat.div_lt_self (by omega : 0 < n) (by omega : 1 < 10)
        omega
      have hmod : n % 10 < 10 := Nat.mod_lt n (by omega)
      have hfacts := digitChar_facts hmod
      have key : ∀ L : Nat, 10 * (acc * 10 ^ L + n / 10) + (48 + n % 10 - 48) =
          acc * 10 ^ (L + 1) + n := by
        intro L
        have hdm : 10 * (n / 10) + n % 10 = n := Nat.div_add_mod n 10
        have hsub : 48 + n % 10 - 48 = n % 10 := by omega
        rw [hsub]
        calc 10 * (acc * 10 ^ L + n / 10) + n % 10
            = acc * (10 ^ L * 10) + (10 * (n / 10) + n % 10) := by ring
          _ = acc * 10 ^ (L + 1) + n := by rw [hdm, pow_succ]
      simp only [natDigitsAux, if_neg h10]
      rw [List.append_assoc, List.singleton_append,
        ih (n / 10) acc (digitChar (n % 10) :: rest) hlt]
      simp only [parseDigitsFrom, hfacts.1, hfacts.2, if_true]
      congr 1
      simp only [List.length_append, List.length_cons, List.length_nil, zero_add]
      exact key _

theorem parseNat_dump (n : Nat) (rest : List Char) (h : noDigitHead rest) :
    parseNat (natDigits n ++ rest) = some (n, rest) := by
  obtain ⟨c, cs, hcs, hdig⟩ := natDigitsAux_head (n + 1) n (Nat.lt_succ_self n)
  have hcs' : natDigits n = c :: cs := hcs
  rw [hcs', List.cons_append]
  unfold parseNat
  simp only [hdig, if_true]
  rw [← List.cons_append, ← hcs']
  unfold natDigits
  rw [parseDigitsFrom_digits (n + 1) n 0 rest (Nat.lt_succ_self n), zero_mul,
    zero_add, parseDigitsFrom_stop h]

theorem parseInt_dump (i : Int) (rest : List Char) (h : noDigitHead rest) :
    parseInt (intDigits i ++ rest) = some (i, rest) := by
  by_cases hneg : i < 0
  · have hd : intDigits i = '-' :: natDigits i.natAbs := by
      unfold intDigits
      rw [if_pos hneg]
    rw [hd, List.cons_append]
    unfold parseInt
    simp only [if_pos, reduceIte, parseNat_dump _ _ h]
    have hi : -((i.natAbs : Int)) = i := by omega
    rw [hi]
  · obtain ⟨c, cs, hcs, hdig⟩ :=
      natDigitsAux_head (i.natAbs + 1) i.natAbs (Nat.lt_succ_self _)
    have hcs' : natDigits i.natAbs = c :: cs := hcs
    have hd : intDigits i = c :: cs := by
      unfold intDigits
      rw [if_neg hneg, hcs']
    rw [hd, List.cons_append]
    unfold parseInt
    simp only [if_neg (isDigitCh_ne hdig).2.2]
    rw [← List.cons_append, ← hcs', parseNat_dump _ _ h]
    have hi : ((i.natAbs : Int)) = i := by omega
    simp [hi]

theorem parseNum_dump (m e : Int) (rest : List Char) (h : numOk rest) :
    parseNum (dumpNum m e ++ rest) = some (m, e, rest) := by
  have hnd : noDigitHead rest := fun c cs' hc => (h c cs' hc).1
  unfold dumpNum
  by_cases he : e = 0
  · rw [if_pos he, List.append_nil]
    unfold parseNum
    rw [parseInt_dump m rest hnd]
    cases rest with
    | nil => simp [he]
    | cons c r =>
      have hcr := h c r rfl
      simp [hcr.2, he]
  · rw [if_neg he]
    have hshape : (intDigits m ++ 'e' :: intDigits e) ++ rest =
        intDigits m ++ ('e' :: (intDigits e ++ rest)) := by
      simp [List.append_assoc]
    rw [hshape]
    unfold parseNum
    rw [parseInt_dump m ('e' :: (intDigits e ++ rest))
      (fun c cs' hc => by injection hc with h1 _; subst h1; decide)]
    simp [parseInt_dump e rest hnd]

theorem parseStr_escape (cs rest : List Char) :
    parseStrChars (escapeList cs ++ '"' :: rest) = some (cs, rest) := by
  induction cs with
  | nil =>
    simp only [escapeList, List.nil_append]
    unfold parseStrChars
    simp
  | cons c cs ih =>
    by_cases hc : c = '"' ∨ c = '\\'
    · simp only [escapeList, escapeChar, if_pos hc, List.cons_append,
        List.append_assoc]
      unfold parseStrChars
      simp [hc, ih]
    · push_neg at hc
      simp only [escapeList, escapeChar,
        if_neg (by simpa using hc : ¬ (c = '"' ∨ c = '\\')),
        List.singleton_append, List.cons_append]
      unfold parseStrChars
      simp [hc.1, hc.2, ih]

theorem sizeJ_pos (j : Json) : 1 ≤ sizeJ j := by
  cases j <;> simp [sizeJ]

theorem sizeM_pos (l : List (String × Json)) : 1 ≤ sizeM l := by
  cases l with
  | nil => simp [sizeM]
  | cons kv rest =>
    obtain ⟨k, v⟩ := kv
    simp [sizeM]
    omega

theorem dumpNum_head (m e : Int) :
    ∃ c cs, dumpNum m e = c :: cs ∧ (isDigitCh c = true ∨ c = '-') := by
  by_cases hneg : m < 0
  · have hd : intDigits m = '-' :: natDigits m.natAbs := by
      unfold intDigits
      rw [if_pos hneg]
    refine ⟨'-', natDigits m.natAbs ++ (if e = 0 then [] else 'e' :: intDigits e),
      ?_, Or.inr rfl⟩
    unfold dumpNum
    rw [hd, List.cons_append]
  · obtain ⟨c, cs, hcs, hdig⟩ :=
      natDigitsAux_head (m.natAbs + 1) m.natAbs (Nat.lt_succ_self _)
    have hd : intDigits m = c :: cs := by
      unfold intDigits
      rw [if_neg hneg]
      exact hcs
    refine ⟨c, cs ++ (if e = 0 then [] else 'e' :: intDigits e),
      ?_, Or.inl hdig⟩
    unfold dumpNum
    rw [hd, List.cons_append]

theorem dumpMembers_cons_cons (k : String) (v : Json) (m0 : String × Json)
    (ms' : List (String × Json)) :
    dumpMembers ((k, v) :: m0 :: ms') =
      dumpStr k ++ (':' :: dumpValue v) ++ (',' :: dumpMembers (m0 :: ms')) := by
  conv_lhs => unfold dumpMembers

theorem parse_dump : ∀ fuel : Nat,
    (∀ j rest, sizeJ j ≤ fuel → numOk rest →
      parseValue fuel (dumpValue j ++ rest) = some (j, rest)) ∧
    (∀ l rest, sizeM l ≤ fuel →
      parseMembers fuel (dumpMembers l ++ '}' :: rest) = some (l, rest)) := by
  intro fuel
  induction fuel with
  | zero =>
    constructor
    · intro j rest hj _
      have := sizeJ_pos j
      omega
    · intro l rest hl
      have := sizeM_pos l
      omega
  | succ fuel ih =>
    obtain ⟨ihV, ihM⟩ := ih
    constructor
    · intro j rest hj hrest
      cases j with
      | str s =>
        obtain ⟨sdata⟩ := s
        simp only [dumpValue, dumpStr, List.cons_append, List.append_assoc,
          List.singleton_append]
        unfold parseValue
        simp [parseStr_escape]
      | num m e =>
        obtain ⟨c, cs, hd, hc⟩ := dumpNum_head m e
        have hne1 : c ≠ '"' := by
          rcases hc with hdig | hminus
          · exact (isDigitCh_ne hdig).1
          · subst hminus; decide
        have hne2 : c ≠ '{' := by
          rcases hc with hdig | hminus
          · exact (isDigitCh_ne hdig).2.1
          · subst hminus; decide
        have hp := parseNum_dump m e rest hrest
        simp only [dumpValue]
        rw [hd, List.cons_append] at hp ⊢
        unfold parseValue
        simp [hne1, hne2, hp]
      | obj l =>
        have hsz : sizeM l ≤ fuel := by
          simp only [sizeJ] at hj
          omega
        have hm := ihM l rest hsz
        simp only [dumpValue, List.cons_append, List.append_assoc,
          List.singleton_append]
        unfold parseValue
        simp [hm]
    · intro l rest hl
      cases l with
      | nil =>
        simp only [dumpMembers, List.nil_append]
        unfold parseMembers
        simp
      | cons kv ms =>
        obtain ⟨k, v⟩ := kv
        have hszv : sizeJ v ≤ fuel := by
          simp only [sizeM] at hl
          have := sizeM_pos ms
          omega
        have hszm : sizeM ms ≤ fuel := by
          simp only [sizeM] at hl
          have := sizeJ_pos v
          omega
        obtain ⟨kdata⟩ := k
        cases ms with
        | nil =>
          have hnum : numOk ('}' :: rest) := by
            intro c cs' hcc
            injection hcc with h1 _
            subst h1
            exact ⟨by decide, by decide⟩
          have hv := ihV v ('}' :: rest) hszv hnum
          simp only [dumpMembers, dumpStr, List.cons_append, List.append_assoc,
            List.singleton_append, List.append_nil]
          unfold parseMembers
          simp [parseStr_escape, hv]
        | cons m0 ms' =>
          have hnum : numOk (',' :: (dumpMembers (m0 :: ms') ++ '}' :: rest)) := by
            intro c cs' hcc
            injection hcc with h1 _
            subst h1
            exact ⟨by decide, by decide⟩
          have hv := ihV v (',' :: (dumpMembers (m0 :: ms') ++ '}' :: rest)) hszv hnum
          have hm := ihM (m0 :: ms') rest hszm
          rw [dumpMembers_cons_cons]
          simp only [dumpStr, List.cons_append, List.append_assoc,
            List.singleton_append]
          unfold parseMembers
          simp [parseStr_escape, hv, hm]

theorem size_le_dump : ∀ n : Nat,
    (∀ j, sizeJ j ≤ n → sizeJ j ≤ (dumpValue j).length + 1) ∧
    (∀ l, sizeM l ≤ n → sizeM l ≤ (dumpMembers l).length + 2) := by
  intro n
  induction n with
  | zero =>
    constructor
    · intro j hj
      have := sizeJ_pos j
      omega
    · intro l hl
      have := sizeM_pos l
      omega
  | succ n ih =>
    obtain ⟨ihV, ihM⟩ := ih
    constructor
    · intro j hj
      cases j with
      | str s =>
        simp only [sizeJ]
        omega
      | num m e =>
        simp only [sizeJ]
        omega
      | obj l =>
        have hl : sizeM l ≤ n := by
          simp only [sizeJ] at hj
          omega
        have hil := ihM l hl
        simp only [sizeJ, dumpValue, List.length_cons, List.length_append]
        simp at hil ⊢
        omega
    · intro l hl
      cases l with
      | nil =>
        simp [sizeM, dumpMembers]
      | cons kv ms =>
        obtain ⟨k, v⟩ := kv
        have hszv : sizeJ v ≤ n := by
          simp only [sizeM] at hl
          have := sizeM_pos ms
          omega
        have hszm : sizeM ms ≤ n := by
          simp only [sizeM] at hl
          have := sizeJ_pos v
          omega
        have h1 := ihV v hszv
        have h2 := ihM ms hszm
        cases ms with
        | nil =>
          simp only [sizeM, dumpMembers, dumpStr, List.append_nil,
            List.cons_append, List.length_append, List.length_cons]
          simp
          omega
        | cons m0 ms' =>
          rw [dumpMembers_cons_cons]
          simp only [sizeM, dumpStr, List.cons_append, List.append_assoc,
            List.singleton_append, List.length_append, List.length_cons]
          simp only [sizeM] at h2
          simp at h1 h2 ⊢
          omega

theorem sizeJ_le_dump (j : Json) : sizeJ j ≤ (dumpValue j).length + 1 :=
  (size_le_dump (sizeJ j)).1 j le_rfl

/-- C9: serializing a report snapshot with `export_profile(format='json')`
and parsing the written text back yields exactly the snapshot that
produced it. -/
theorem export_profile_json_roundtrip (report : Json) :
    json_loads (export_profile_json report) = some report := by
  unfold json_loads export_profile_json json_dumps
  have hnum : numOk ([] : List Char) := by
    intro c cs' hc
    simp at hc
  have h := (parse_dump ((dumpValue report).length + 1)).1 report []
    (sizeJ_le_dump report) hnum
  rw [List.append_nil] at h
  simp [h]

end Corepy
